import Mathlib

set_option maxRecDepth 8192

/-! Shallow embedding of the request-admission components of the
Chrome-AI-Assistant backend: the schema-driven validation middleware
(`backend/middleware/validation.js`), the API-key authentication middleware
and the per-key sliding-window rate limiter (`backend/middleware/auth.js`),
and their route-level composition (`backend/routes/ocr.js`).

JavaScript machine details are modelled as follows: JS numbers are a finite
rational, NaN, or one of the two infinities; strings are Lean strings
(`String.length` stands in for the UTF-16 code-unit length, which agrees on
the ASCII data exercised here); objects are association lists of fields. -/

/-- JavaScript numbers: a finite value (modelled as a rational), NaN, or one
of the two infinities. -/
inductive JSNum where
  | finite (q : Rat)
  | nan
  | posInf
  | negInf
  deriving DecidableEq

/-- JavaScript values as the middleware sees them: primitives, arrays, and
plain objects (association lists of named fields). `undefined` stands for an
absent field. -/
inductive JSValue where
  | undefined
  | null
  | bool (b : Bool)
  | num (n : JSNum)
  | str (s : String)
  | arr (elems : List JSValue)
  | obj (fields : List (String × JSValue))

/-- The JS `typeof` operator on the modelled values. -/
def jsTypeof : JSValue → String
  | .undefined => "undefined"
  | .null => "object"
  | .bool _ => "boolean"
  | .num _ => "number"
  | .str _ => "string"
  | .arr _ => "object"
  | .obj _ => "object"

/-- `Array.isArray`. -/
def jsIsArray : JSValue → Bool
  | .arr _ => true
  | _ => false

/-- Field access `o[name]` on a modelled object (association list); an absent
field reads as `undefined`. -/
def jsGet (fields : List (String × JSValue)) (name : String) : JSValue :=
  (fields.lookup name).getD .undefined

/-- The `'name' in o` membership operator, restricted to plain objects; the
validation middleware only reaches it after an `object` type check, so the
array index case never arises there. -/
def jsHasKey (v : JSValue) (name : String) : Bool :=
  match v with
  | .obj fields => fields.any (fun f => f.1 == name)
  | _ => false

/-- `validateType` from `backend/middleware/validation.js` (lines 178-197).
The `number` and `float` cases embed `typeof value === 'number' &&
!isNaN(value)`; `integer` embeds `Number.isInteger(value)` (a finite number
with integral value). Unknown type names pass. -/
def validateType (value : JSValue) (expectedType : String) : Bool :=
  match expectedType with
  | "string" => match value with | .str _ => true | _ => false
  | "number" => match value with | .num .nan => false | .num _ => true | _ => false
  | "boolean" => match value with | .bool _ => true | _ => false
  | "array" => jsIsArray value
  | "object" => match value with | .obj _ => true | _ => false
  | "integer" => match value with | .num (.finite q) => q.den == 1 | _ => false
  | "float" => match value with | .num .nan => false | .num _ => true | _ => false
  | _ => true

/-- Scans the tail of a candidate URL for the end of a scheme. -/
def schemeTail : List Char → Bool
  | [] => false
  | c :: rest =>
    if c = ':' then true
    else (c.isAlphanum || c = '+' || c = '-' || c = '.') && schemeTail rest

/-- `isValidUrl` from `backend/middleware/validation.js`: `new URL(string)`
succeeding. Modelled as the string starting with an RFC 3986 scheme (an ASCII
letter followed by letters, digits, `+`, `-` or `.`) terminated by a colon;
this abstracts the WHATWG parser, which no claim exercises. -/
def isValidUrl (s : String) : Bool :=
  match s.data with
  | c :: rest => c.isAlpha && schemeTail rest
  | [] => false

/-- Splits a character list around the first occurrence of `pat`; `none` when
`pat` does not occur. -/
def splitOnce (pat : List Char) : List Char → Option (List Char × List Char)
  | [] => if pat.isEmpty then some ([], []) else none
  | c :: cs =>
    if pat.isPrefixOf (c :: cs) then some ([], (c :: cs).drop pat.length)
    else (splitOnce pat cs).map (fun p => (c :: p.1, p.2))

/-- A character allowed by the `[^\s@]` class of the email regular
expression. -/
def emailChar (c : Char) : Bool := !c.isWhitespace && c != '@'

/-- `isValidEmail` from `backend/middleware/validation.js`: the test of
`^[^\s@]+@[^\s@]+\.[^\s@]+$`. The part before the first `@` must be a
non-empty run of `[^\s@]`; the part after must be a non-empty run of
`[^\s@]` containing a dot at an interior position. -/
def isValidEmail (email : String) : Bool :=
  match splitOnce ['@'] email.data with
  | some (before, after) =>
    !before.isEmpty && before.all emailChar &&
    after.all emailChar && ((after.drop 1).dropLast.contains '.')
  | none => false

/-- A compiled regular expression as the middleware uses it: its source text
together with its `test` semantics. The JS engine's regex evaluator is
modelled by the packaged `test` function. -/
structure Pattern where
  source : String
  test : String → Bool

/-- One field rule of a route schema, with the optional constraint keys the
validation middleware reads. -/
structure FieldSchema where
  type : Option String := none
  required : Bool := false
  minLength : Option Nat := none
  maxLength : Option Nat := none
  pattern : Option Pattern := none
  format : Option String := none
  minItems : Option Nat := none
  maxItems : Option Nat := none
  requiredFields : Option (List String) := none

/-- A validation error as pushed by the middleware. The auxiliary payload
keys (`expected`, `actualLength`, ...) are folded into the message text,
which the source also interpolates them into. -/
structure ValidationError where
  field : String
  message : String
  code : String
  deriving DecidableEq

/-- The missing-value test of the required-field check (line 27):
`value === undefined || value === null || value === ''`. -/
def isMissingOrEmpty : JSValue → Bool
  | .undefined => true
  | .null => true
  | .str s => s == ""
  | _ => false

/-- The absence test of the optional-field skip (line 37):
`value === undefined || value === null`. -/
def isAbsent : JSValue → Bool
  | .undefined => true
  | .null => true
  | _ => false

/-- The REQUIRED_FIELD error (lines 28-32). -/
def requiredError (fieldName : String) : ValidationError :=
  ⟨fieldName, s!"{fieldName} is required", "REQUIRED_FIELD"⟩

/-- The INVALID_TYPE error (lines 43-49). -/
def typeError (fieldName t : String) : ValidationError :=
  ⟨fieldName, s!"{fieldName} must be of type {t}", "INVALID_TYPE"⟩

/-- The guarded type check (line 42): `fieldSchema.type &&
!validateType(value, fieldSchema.type)`; an absent or empty (falsy) `type`
key skips the check. -/
def typeCheckFails (fs : FieldSchema) (v : JSValue) : Bool :=
  match fs.type with
  | some t => t != "" && !validateType v t
  | none => false

/-- The minLength check (lines 56-64); `fieldSchema.minLength &&` makes a
zero bound falsy and skips the check. -/
def minLengthErrors (fieldName : String) (fs : FieldSchema) (s : String) : List ValidationError :=
  match fs.minLength with
  | some n =>
    if n != 0 && s.length < n then
      [⟨fieldName, s!"{fieldName} must be at least {n} characters long", "MIN_LENGTH"⟩]
    else []
  | none => []

/-- The maxLength check (lines 66-74), with the same truthiness guard. -/
def maxLengthErrors (fieldName : String) (fs : FieldSchema) (s : String) : List ValidationError :=
  match fs.maxLength with
  | some n =>
    if n != 0 && n < s.length then
      [⟨fieldName, s!"{fieldName} must be no more than {n} characters long", "MAX_LENGTH"⟩]
    else []
  | none => []

/-- The pattern check (lines 77-84): `fieldSchema.pattern && !new
RegExp(fieldSchema.pattern).test(value)`; an empty pattern source is falsy. -/
def patternErrors (fieldName : String) (fs : FieldSchema) (s : String) : List ValidationError :=
  match fs.pattern with
  | some p =>
    if p.source != "" && !p.test s then
      [⟨fieldName, s!"{fieldName} format is invalid", "INVALID_PATTERN"⟩]
    else []
  | none => []

/-- The url format check (lines 87-93). -/
def urlFormatErrors (fieldName : String) (fs : FieldSchema) (s : String) : List ValidationError :=
  if fs.format == some "url" && !isValidUrl s then
    [⟨fieldName, s!"{fieldName} must be a valid URL", "INVALID_URL"⟩]
  else []

/-- The email format check (lines 95-101). -/
def emailFormatErrors (fieldName : String) (fs : FieldSchema) (s : String) : List ValidationError :=
  if fs.format == some "email" && !isValidEmail s then
    [⟨fieldName, s!"{fieldName} must be a valid email address", "INVALID_EMAIL"⟩]
  else []

/-- The string-specific block (lines 54-102), guarded by
`fieldSchema.type === 'string' && typeof value === 'string'`; each check
appends its error independently. -/
def stringErrors (fieldName : String) (fs : FieldSchema) (v : JSValue) : List ValidationError :=
  match v with
  | .str s =>
    if fs.type == some "string" then
      minLengthErrors fieldName fs s ++ maxLengthErrors fieldName fs s ++
      patternErrors fieldName fs s ++ urlFormatErrors fieldName fs s ++
      emailFormatErrors fieldName fs s
    else []
  | _ => []

/-- The minItems check (lines 106-113). -/
def minItemsErrors (fieldName : String) (fs : FieldSchema) (elems : List JSValue) : List ValidationError :=
  match fs.minItems with
  | some n =>
    if n != 0 && elems.length < n then
      [⟨fieldName, s!"{fieldName} must contain at least {n} items", "MIN_ITEMS"⟩]
    else []
  | none => []

/-- The maxItems check (lines 116-123). -/
def maxItemsErrors (fieldName : String) (fs : FieldSchema) (elems : List JSValue) : List ValidationError :=
  match fs.maxItems with
  | some n =>
    if n != 0 && n < elems.length then
      [⟨fieldName, s!"{fieldName} must contain no more than {n} items", "MAX_ITEMS"⟩]
    else []
  | none => []

/-- The array-specific block (lines 105-125), guarded by
`fieldSchema.type === 'array' && Array.isArray(value)`. -/
def arrayErrors (fieldName : String) (fs : FieldSchema) (v : JSValue) : List ValidationError :=
  match v with
  | .arr elems =>
    if fs.type == some "array" then
      minItemsErrors fieldName fs elems ++ maxItemsErrors fieldName fs elems
    else []
  | _ => []

/-- The object-specific block (lines 128-140), guarded by
`fieldSchema.type === 'object' && typeof value === 'object' && value !==
null`; each required subfield absent from the value appends an error. -/
def objectErrors (fieldName : String) (fs : FieldSchema) (v : JSValue) : List ValidationError :=
  if fs.type == some "object" && (jsTypeof v == "object" && !(isAbsent v)) then
    match fs.requiredFields with
    | some rfs =>
      rfs.filterMap (fun rf =>
        if jsHasKey v rf then none
        else some ⟨s!"{fieldName}.{rf}", s!"{rf} is required in {fieldName}", "REQUIRED_OBJECT_FIELD"⟩)
    | none => []
  else []

/-- The per-field body of the validation loop (lines 23-141): the required
check short-circuits the rest via `continue`, as does a failed type check;
otherwise the three kind-specific blocks run in order and accumulate. -/
def validateField (fieldName : String) (fs : FieldSchema) (value : JSValue) : List ValidationError :=
  if fs.required && isMissingOrEmpty value then [requiredError fieldName]
  else if !fs.required && isAbsent value then []
  else if typeCheckFails fs value then [typeError fieldName (fs.type.getD "")]
  else
    stringErrors fieldName fs value ++ arrayErrors fieldName fs value ++
    objectErrors fieldName fs value

/-- The whole validation pass of `validateRequest(schema)` over a request
body: the loop over `Object.entries(schema)` pushing each field's errors onto
the shared accumulator. -/
def validateErrors (schema : List (String × FieldSchema)) (body : List (String × JSValue)) : List ValidationError :=
  schema.foldl (fun errs rule => errs ++ validateField rule.1 rule.2 (jsGet body rule.1)) []

/-- The environment-derived configuration the auth middleware reads:
`process.env.NODE_ENV` and `process.env.API_KEY`, each possibly unset. -/
structure Env where
  nodeEnv : Option String := none
  apiKey : Option String := none

/-- JS truthiness of an environment variable: unset or empty is falsy. -/
def envTruthy : Option String → Bool
  | none => false
  | some s => s != ""

/-- An inbound request as the middleware sees it: header map (express
lowercases header names and delivers string values), parsed query map, and
parsed JSON body. -/
structure Request where
  headers : List (String × String) := []
  query : List (String × JSValue) := []
  body : List (String × JSValue) := []

/-- JS `String.prototype.replace` with a string pattern: replaces only the
first occurrence of `pat`, anywhere in the string. -/
def jsReplaceFirst (s pat repl : String) : String :=
  match splitOnce pat.data s.data with
  | some p => ⟨p.1 ++ repl.data ++ p.2⟩
  | none => s

/-- JS `String.prototype.trim`: leading and trailing whitespace removed
(modelled over the character list). -/
def jsTrim (s : String) : String :=
  ⟨((s.data.dropWhile Char.isWhitespace).reverse.dropWhile Char.isWhitespace).reverse⟩

/-- One candidate location's acceptance test inside the resolver loop
(line 103): `key && typeof key === 'string' && key.trim().length > 0`,
returning the trimmed candidate. (For a string the truthiness conjunct is
subsumed by the trimmed-length test.) -/
def acceptCandidate : Option JSValue → Option String
  | some (.str s) => if 0 < (jsTrim s).length then some (jsTrim s) else none
  | _ => none

/-- The ordered candidate locations of `getApiKeyFromRequest` (lines 93-99):
header `x-api-key`; header `authorization` with the first occurrence of
`'Bearer '` replaced by the empty string; header `api-key`; query `apiKey`;
body `apiKey`. -/
def keyLocations (req : Request) : List (Option JSValue) :=
  [(req.headers.lookup "x-api-key").map .str,
   (req.headers.lookup "authorization").map (fun a => .str (jsReplaceFirst a "Bearer " "")),
   (req.headers.lookup "api-key").map .str,
   req.query.lookup "apiKey",
   req.body.lookup "apiKey"]

/-- `getApiKeyFromRequest` from `backend/middleware/auth.js` (lines 91-109):
the first location whose candidate is accepted yields the (trimmed) key;
otherwise `null`. -/
def getApiKeyFromRequest (req : Request) : Option String :=
  (keyLocations req).findSome? acceptCandidate

/-- `isValidApiKey` (lines 112-130): an empty (falsy) candidate is invalid; a
configured `API_KEY` requires exact match; with none configured, development
mode accepts any candidate of length at least 8; any other mode rejects. -/
def isValidApiKey (env : Env) (apiKey : String) : Bool :=
  if apiKey == "" then false
  else if envTruthy env.apiKey then apiKey == env.apiKey.getD ""
  else if env.nodeEnv == some "development" then decide (8 <= apiKey.length)
  else false

/-- The `req.auth` record the middleware attaches: `{apiKey?, authenticated,
timestamp}` (the unauthenticated record of `optionalAuthenticate` carries no
`apiKey` field, hence the option). -/
structure AuthInfo where
  apiKey : Option String
  authenticated : Bool
  timestamp : String
  deriving DecidableEq

/-- Outcome of the authentication middleware: `next()` with the resulting
`req.auth` value, or a JSON rejection with an HTTP status. -/
inductive AuthResult where
  | proceed (auth : Option AuthInfo)
  | reject (status : Nat) (error : String) (message : String)
  deriving DecidableEq

/-- `authenticateRequest` (lines 17-88). In development mode with no (truthy)
configured key the middleware returns `next()` at once, leaving `req.auth`
unset; otherwise it resolves a candidate, rejects 401 when none is found or
when validation fails, and on success attaches an authenticated record.
`now` stands for `new Date().toISOString()`. -/
def authenticateRequest (env : Env) (now : String) (req : Request) : AuthResult :=
  if env.nodeEnv == some "development" && !envTruthy env.apiKey then
    .proceed none
  else
    match getApiKeyFromRequest req with
    | none => .reject 401 "Authentication required" "API key is required for this endpoint"
    | some apiKey =>
      if !isValidApiKey env apiKey then
        .reject 401 "Invalid API key" "The provided API key is invalid"
      else
        .proceed (some ⟨some apiKey, true, now⟩)

/-- `optionalAuthenticate` (lines 133-157): never rejects; attaches an
authenticated record when a resolved candidate validates and an
`{authenticated: false}` record otherwise. -/
def optionalAuthenticate (env : Env) (now : String) (req : Request) : AuthInfo :=
  match getApiKeyFromRequest req with
  | some apiKey =>
    if isValidApiKey env apiKey then ⟨some apiKey, true, now⟩
    else ⟨none, false, now⟩
  | none => ⟨none, false, now⟩

/-- The rate limiter's process-wide store: the `requests` map from key to
timestamp list, insertion-ordered like a JS `Map`. -/
abbrev RLStore := List (String × List Int)

/-- `requests.get(key)` on the association-list model of the JS map (string
key equality, first match). -/
def storeGet : RLStore → String → Option (List Int)
  | [], _ => none
  | e :: rest, k => if e.1 == k then some e.2 else storeGet rest k

/-- `timestamps.filter(ts => ts > windowStart)` as used in both the cleanup
loop and the per-key check. -/
def validTimestamps (windowStart : Int) (ts : List Int) : List Int :=
  ts.filter (fun t => windowStart < t)

/-- The opportunistic cleanup loop (lines 168-176): every tracked key's list
is pruned to the window and a key left empty is deleted. -/
def cleanupStore (windowStart : Int) (st : RLStore) : RLStore :=
  st.filterMap (fun e =>
    let valid := validTimestamps windowStart e.2
    if valid.isEmpty then none else some (e.1, valid))

/-- `requests.set(key, value)` on the association-list model of the JS map:
replace in place when present, append when absent. -/
def storeSet : RLStore → String → List Int → RLStore
  | [], k, v => [(k, v)]
  | e :: rest, k, v => if e.1 == k then (k, v) :: rest else e :: storeSet rest k v

/-- Outcome of one pass through the rate-limit middleware. -/
inductive RLOutcome where
  | admitted
  | rejected (retryAfter : Int)
  deriving DecidableEq

/-- One invocation of the middleware produced by `createApiKeyRateLimit`
(lines 163-203) for resolved key `key` at time `now`: global cleanup, then
the windowed count check; rejection reports `retryAfter =
Math.ceil(windowMs / 1000)` (the integer formula agrees with `Math.ceil` for
the non-negative window sizes the server configures); admission appends `now`
to the filtered list and stores it. -/
def rateLimitStep (windowMs : Int) (maxRequests : Nat) (st : RLStore) (key : String) (now : Int) : RLStore × RLOutcome :=
  let windowStart := now - windowMs
  let st1 := cleanupStore windowStart st
  let keyRequests := (storeGet st1 key).getD []
  let recentRequests := validTimestamps windowStart keyRequests
  if maxRequests <= recentRequests.length then
    (st1, .rejected ((windowMs + 999) / 1000))
  else
    (storeSet st1 key (recentRequests ++ [now]), .admitted)

/-- A sequence of admit calls `(key, time)` against one limiter instance,
starting from the given store; yields the outcome of each call in order. -/
def runRateLimit (windowMs : Int) (maxRequests : Nat) : RLStore → List (String × Int) → List RLOutcome
  | _, [] => []
  | st, c :: rest =>
    let r := rateLimitStep windowMs maxRequests st c.1 c.2
    r.2 :: runRateLimit windowMs maxRequests r.1 rest

/-- The language-tag pattern `^[a-z]{2,3}(-[A-Z]{2})?$` of the OCR schema:
two or three lowercase letters, optionally followed by a hyphen and two
uppercase letters. -/
def isLangTag (s : String) : Bool :=
  let cs := s.data
  let lower := cs.takeWhile Char.isLower
  let rest := cs.drop lower.length
  (lower.length == 2 || lower.length == 3) &&
  (rest.isEmpty ||
    (rest.length == 3 && rest.headD ' ' == '-' && (rest.drop 1).all Char.isUpper))

/-- The compiled language pattern of the OCR schema. -/
def langPattern : Pattern :=
  ⟨"^[a-z]\x7b2,3\x7d(-[A-Z]\x7b2\x7d)?$", isLangTag⟩

/-- `ocrSchema` from `backend/routes/ocr.js` (lines 23-42). -/
def ocrSchema : List (String × FieldSchema) :=
  [("image", { type := some "string", required := true, minLength := some 1 }),
   ("url", { type := some "string", required := false, format := some "url" }),
   ("language", { type := some "string", required := false, pattern := some langPattern }),
   ("options", { type := some "object", required := false })]

/-- Result of running a route's admission middleware chain: the request
reaches the route handler carrying the final `req.auth`, or is rejected with
a structured JSON error (validation rejections carry the error list). -/
inductive PipelineResult where
  | handled (auth : Option AuthInfo)
  | rejected (status : Nat) (error : String) (message : String) (details : List ValidationError)
  deriving DecidableEq

/-- The admission chain of `router.post('/', authenticateRequest,
validateRequest(ocrSchema), handler)` in `backend/routes/ocr.js` line 46:
express runs `authenticateRequest` first; only if it calls `next()` does
`validateRequest(ocrSchema)` run, rejecting 400 with the accumulated error
list when it is non-empty. -/
def ocrAdmission (env : Env) (now : String) (req : Request) : PipelineResult :=
  match authenticateRequest env now req with
  | .reject status error message => .rejected status error message []
  | .proceed auth =>
    let errs := validateErrors ocrSchema req.body
    if errs.isEmpty then .handled auth
    else .rejected 400 "Validation failed" "Request validation failed" errs

/-- Modelled from the spec as amended (§4.1): the kind check a present value
must pass. An unset kind imposes nothing; that an empty kind name also
imposes nothing is a code-derived adjustment (the kind is falsy in the
source guard, line 42). -/
def kindOK (fs : FieldSchema) (v : JSValue) : Bool :=
  match fs.type with
  | some t => t == "" || validateType v t
  | none => true

/-- Modelled from the spec as amended: the minLength rule is satisfied. The
zero-bound skip is a code-derived adjustment (a zero bound is falsy in the
source and imposes nothing); for this lower bound it is also vacuous. -/
def minLengthOK (fs : FieldSchema) (s : String) : Bool :=
  match fs.minLength with
  | some n => n == 0 || decide (n <= s.length)
  | none => true

/-- Modelled from the spec as amended: the maxLength rule is satisfied. The
zero-bound skip is a code-derived adjustment the spec's words do not
contain: a zero bound is falsy in the source and imposes nothing. -/
def maxLengthOK (fs : FieldSchema) (s : String) : Bool :=
  match fs.maxLength with
  | some n => n == 0 || decide (s.length <= n)
  | none => true

/-- Modelled from the spec as amended: the pattern rule is satisfied. The
empty-source skip is a code-derived adjustment (an empty pattern string is
falsy in the source guard, line 77). -/
def patternOK (fs : FieldSchema) (s : String) : Bool :=
  match fs.pattern with
  | some p => p.source == "" || p.test s
  | none => true

/-- Modelled from the spec: the url format rule is satisfied. -/
def urlFormatOK (fs : FieldSchema) (s : String) : Bool :=
  fs.format != some "url" || isValidUrl s

/-- Modelled from the spec: the email format rule is satisfied. -/
def emailFormatOK (fs : FieldSchema) (s : String) : Bool :=
  fs.format != some "email" || isValidEmail s

/-- Modelled from the spec: every string-specific rule is satisfied. -/
def stringOK (fs : FieldSchema) (v : JSValue) : Bool :=
  match v with
  | .str s =>
    fs.type != some "string" ||
    (minLengthOK fs s && maxLengthOK fs s && patternOK fs s &&
     urlFormatOK fs s && emailFormatOK fs s)
  | _ => true

/-- Modelled from the spec as amended: the minItems rule is satisfied, with
the code-derived (and for a lower bound vacuous) zero-bound skip. -/
def minItemsOK (fs : FieldSchema) (elems : List JSValue) : Bool :=
  match fs.minItems with
  | some n => n == 0 || decide (n <= elems.length)
  | none => true

/-- Modelled from the spec as amended: the maxItems rule is satisfied. The
zero-bound skip is a code-derived adjustment the spec's words do not
contain (a zero bound is falsy in the source and imposes nothing). -/
def maxItemsOK (fs : FieldSchema) (elems : List JSValue) : Bool :=
  match fs.maxItems with
  | some n => n == 0 || decide (elems.length <= n)
  | none => true

/-- Modelled from the spec: every array-specific rule is satisfied. -/
def arrayOK (fs : FieldSchema) (v : JSValue) : Bool :=
  match v with
  | .arr elems =>
    fs.type != some "array" || (minItemsOK fs elems && maxItemsOK fs elems)
  | _ => true

/-- Modelled from the spec: every required subfield of an object rule is
present. -/
def objectOK (fs : FieldSchema) (v : JSValue) : Bool :=
  if fs.type == some "object" && (jsTypeof v == "object" && !(isAbsent v)) then
    match fs.requiredFields with
    | some rfs => rfs.all (jsHasKey v)
    | none => true
  else true

/-- Modelled from the spec as amended (§4.1): the payload value `v`
satisfies field rule `fs` — a required field is not missing, a present value
passes the kind check, and every applicable constraint holds. The amendment,
forced by the counterexample to C2 as stated: a required field bearing the
empty string counts as missing (the code's check at line 27, the behavior
claim C10 records), where the spec's literal reading — see
`satisfiesRuleSpec` — treats only absent values as missing. -/
def satisfiesRule (fs : FieldSchema) (v : JSValue) : Bool :=
  if fs.required && isMissingOrEmpty v then false
  else if !fs.required && isAbsent v then true
  else kindOK fs v && (stringOK fs v && arrayOK fs v && objectOK fs v)

/-- Modelled from the spec as amended (§8): the payload satisfies every rule
of the schema, in the amended sense of `satisfiesRule`. -/
def satisfiesSchema (schema : List (String × FieldSchema)) (body : List (String × JSValue)) : Bool :=
  schema.all (fun rule => satisfiesRule rule.2 (jsGet body rule.1))

lemma minLengthErrors_empty_iff (fieldName : String) (fs : FieldSchema) (s : String) :
    minLengthErrors fieldName fs s = [] ↔ minLengthOK fs s = true := by
  cases h : fs.minLength with
  | none => simp [minLengthErrors, minLengthOK, h]
  | some n => simp [minLengthErrors, minLengthOK, h]; omega

lemma maxLengthErrors_empty_iff (fieldName : String) (fs : FieldSchema) (s : String) :
    maxLengthErrors fieldName fs s = [] ↔ maxLengthOK fs s = true := by
  cases h : fs.maxLength with
  | none => simp [maxLengthErrors, maxLengthOK, h]
  | some n => simp [maxLengthErrors, maxLengthOK, h]; omega

lemma patternErrors_empty_iff (fieldName : String) (fs : FieldSchema) (s : String) :
    patternErrors fieldName fs s = [] ↔ patternOK fs s = true := by
  cases h : fs.pattern with
  | none => simp [patternErrors, patternOK, h]
  | some p => simp [patternErrors, patternOK, h]; tauto

lemma urlFormatErrors_empty_iff (fieldName : String) (fs : FieldSchema) (s : String) :
    urlFormatErrors fieldName fs s = [] ↔ urlFormatOK fs s = true := by
  simp [urlFormatErrors, urlFormatOK]; tauto

lemma emailFormatErrors_empty_iff (fieldName : String) (fs : FieldSchema) (s : String) :
    emailFormatErrors fieldName fs s = [] ↔ emailFormatOK fs s = true := by
  simp [emailFormatErrors, emailFormatOK]; tauto

lemma stringErrors_empty_iff (fieldName : String) (fs : FieldSchema) (v : JSValue) :
    stringErrors fieldName fs v = [] ↔ stringOK fs v = true := by
  cases v with
  | str s =>
    by_cases ht : fs.type = some "string"
    · simp [stringErrors, stringOK, ht, List.append_eq_nil,
        minLengthErrors_empty_iff, maxLengthErrors_empty_iff,
        patternErrors_empty_iff, urlFormatErrors_empty_iff,
        emailFormatErrors_empty_iff, and_assoc]
    · simp [stringErrors, stringOK, ht]
  | undefined => simp [stringErrors, stringOK]
  | null => simp [stringErrors, stringOK]
  | bool b => simp [stringErrors, stringOK]
  | num n => simp [stringErrors, stringOK]
  | arr elems => simp [stringErrors, stringOK]
  | obj fields => simp [stringErrors, stringOK]

lemma minItemsErrors_empty_iff (fieldName : String) (fs : FieldSchema) (elems : List JSValue) :
    minItemsErrors fieldName fs elems = [] ↔ minItemsOK fs elems = true := by
  cases h : fs.minItems with
  | none => simp [minItemsErrors, minItemsOK, h]
  | some n => simp [minItemsErrors, minItemsOK, h]; omega

lemma maxItemsErrors_empty_iff (fieldName : String) (fs : FieldSchema) (elems : List JSValue) :
    maxItemsErrors fieldName fs elems = [] ↔ maxItemsOK fs elems = true := by
  cases h : fs.maxItems with
  | none => simp [maxItemsErrors, maxItemsOK, h]
  | some n => simp [maxItemsErrors, maxItemsOK, h]; omega

lemma arrayErrors_empty_iff (fieldName : String) (fs : FieldSchema) (v : JSValue) :
    arrayErrors fieldName fs v = [] ↔ arrayOK fs v = true := by
  cases v with
  | arr elems =>
    by_cases ht : fs.type = some "array"
    · simp [arrayErrors, arrayOK, ht, List.append_eq_nil,
        minItemsErrors_empty_iff, maxItemsErrors_empty_iff]
    · simp [arrayErrors, arrayOK, ht]
  | undefined => simp [arrayErrors, arrayOK]
  | null => simp [arrayErrors, arrayOK]
  | bool b => simp [arrayErrors, arrayOK]
  | num n => simp [arrayErrors, arrayOK]
  | str s => simp [arrayErrors, arrayOK]
  | obj fields => simp [arrayErrors, arrayOK]

lemma objectErrors_empty_iff (fieldName : String) (fs : FieldSchema) (v : JSValue) :
    objectErrors fieldName fs v = [] ↔ objectOK fs v = true := by
  by_cases hg : fs.type == some "object" && (jsTypeof v == "object" && !(isAbsent v))
  · cases h : fs.requiredFields with
    | none => simp [objectErrors, objectOK, hg, h]
    | some rfs =>
      simp [objectErrors, objectOK, hg, h, List.filterMap_eq_nil_iff,
        List.all_eq_true]
  · simp [objectErrors, objectOK, hg]

lemma kindOK_eq_not_typeCheckFails (fs : FieldSchema) (v : JSValue) :
    kindOK fs v = !typeCheckFails fs v := by
  cases h : fs.type with
  | none => simp [kindOK, typeCheckFails, h]
  | some t =>
    cases hte : (t == "") <;> cases hv : validateType v t <;>
      simp [kindOK, typeCheckFails, h, hte, hv, bne]

lemma validateField_empty_iff (fieldName : String) (fs : FieldSchema) (v : JSValue) :
    validateField fieldName fs v = [] ↔ satisfiesRule fs v = true := by
  unfold validateField satisfiesRule
  by_cases h1 : fs.required && isMissingOrEmpty v
  · simp [h1, requiredError]
  · simp only [h1, if_false, Bool.false_eq_true]
    by_cases h2 : !fs.required && isAbsent v
    · simp [h2]
    · simp only [h2, if_false, Bool.false_eq_true]
      by_cases h3 : typeCheckFails fs v
      · have hk : kindOK fs v = false := by
          rw [kindOK_eq_not_typeCheckFails, h3]; rfl
        simp [h3, hk, typeError]
      · have hk : kindOK fs v = true := by
          rw [kindOK_eq_not_typeCheckFails]
          simp [h3]
        simp [h3, hk, List.append_eq_nil, stringErrors_empty_iff,
          arrayErrors_empty_iff, objectErrors_empty_iff, and_assoc]

lemma validateErrors_foldl_init (schema : List (String × FieldSchema)) (body : List (String × JSValue)) :
    ∀ init : List ValidationError,
      schema.foldl (fun errs rule => errs ++ validateField rule.1 rule.2 (jsGet body rule.1)) init
        = init ++ validateErrors schema body := by
  induction schema with
  | nil => intro init; simp [validateErrors]
  | cons r rest ih =>
    intro init
    simp only [validateErrors, List.foldl_cons, List.nil_append]
    rw [ih, ih (validateField r.1 r.2 (jsGet body r.1)), List.append_assoc]

lemma validateErrors_cons (r : String × FieldSchema) (rest : List (String × FieldSchema)) (body : List (String × JSValue)) :
    validateErrors (r :: rest) body
      = validateField r.1 r.2 (jsGet body r.1) ++ validateErrors rest body := by
  simp only [validateErrors, List.foldl_cons, List.nil_append]
  exact validateErrors_foldl_init rest body _

lemma validTimestamps_all_in (w : Int) (ts : List Int) (h : ∀ t ∈ ts, w < t) :
    validTimestamps w ts = ts := by
  induction ts with
  | nil => rfl
  | cons a as ih =>
    have ha : w < a := h a (List.mem_cons_self a as)
    have hrest : validTimestamps w as = as :=
      ih (fun t ht => h t (List.mem_cons_of_mem a ht))
    simp only [validTimestamps, List.filter_cons] at hrest ⊢
    simp [ha, hrest]

lemma validTimestamps_all_out (w : Int) (ts : List Int) (h : ∀ t ∈ ts, ¬ w < t) :
    validTimestamps w ts = [] := by
  induction ts with
  | nil => rfl
  | cons a as ih =>
    have ha : ¬ w < a := h a (List.mem_cons_self a as)
    have hrest : validTimestamps w as = [] :=
      ih (fun t ht => h t (List.mem_cons_of_mem a ht))
    simp only [validTimestamps, List.filter_cons] at hrest ⊢
    simp [ha, hrest]

lemma mem_validTimestamps (w t : Int) (ts : List Int) (h : t ∈ validTimestamps w ts) :
    w < t := by
  simp only [validTimestamps, List.mem_filter, decide_eq_true_eq] at h
  exact h.2

lemma storeGet_mem (st : RLStore) (k : String) (v : List Int)
    (h : storeGet st k = some v) : (k, v) ∈ st := by
  induction st with
  | nil => cases h
  | cons e rest ih =>
    by_cases he : e.1 == k
    · rw [storeGet, if_pos he] at h
      have hk : e.1 = k := beq_iff_eq.mp he
      have hv : e.2 = v := Option.some.inj h
      have : (k, v) = e := by
        obtain ⟨e1, e2⟩ := e
        simp only at hk hv
        rw [hk, hv]
      rw [this]
      exact List.mem_cons_self e rest
    · rw [storeGet, if_neg he] at h
      exact List.mem_cons_of_mem e (ih h)

lemma mem_cleanupStore (w : Int) (st : RLStore) (k : String) (ts : List Int)
    (h : (k, ts) ∈ cleanupStore w st) :
    ∃ ts0, (k, ts0) ∈ st ∧ ts = validTimestamps w ts0 ∧ ts ≠ [] := by
  simp only [cleanupStore, List.mem_filterMap] at h
  obtain ⟨e, hmem, he⟩ := h
  by_cases hv : (validTimestamps w e.2).isEmpty = true
  · rw [if_pos hv] at he
    cases he
  · rw [if_neg hv] at he
    have hpair := Option.some.inj he
    have hk : e.1 = k := congrArg Prod.fst hpair
    have hts : validTimestamps w e.2 = ts := congrArg Prod.snd hpair
    refine ⟨e.2, ?_, hts.symm, ?_⟩
    · rw [← hk]
      exact hmem
    · rw [← hts]
      intro hnil
      rw [hnil] at hv
      simp at hv

lemma mem_storeSet (st : RLStore) (k : String) (v : List Int) (e : String × List Int)
    (h : e ∈ storeSet st k v) : e = (k, v) ∨ e ∈ st := by
  induction st with
  | nil =>
    simp only [storeSet] at h
    left
    simpa using h
  | cons e0 rest ih =>
    by_cases h0 : e0.1 == k
    · rw [storeSet, if_pos h0] at h
      rcases List.mem_cons.mp h with h | h
      · left; exact h
      · right; exact List.mem_cons_of_mem e0 h
    · rw [storeSet, if_neg h0] at h
      rcases List.mem_cons.mp h with h | h
      · right; rw [h]; exact List.mem_cons_self e0 rest
      · rcases ih h with h | h
        · left; exact h
        · right; exact List.mem_cons_of_mem e0 h

lemma storeGet_storeSet_ne (st : RLStore) (k k' : String) (v : List Int)
    (h : k' ≠ k) : storeGet (storeSet st k v) k' = storeGet st k' := by
  have hkk : (k == k') = false := beq_eq_false_iff_ne.mpr (fun hh => h hh.symm)
  induction st with
  | nil =>
    simp only [storeSet, storeGet]
    simp [hkk]
  | cons e rest ih =>
    by_cases h0 : e.1 == k
    · rw [storeSet, if_pos h0]
      have he : e.1 = k := beq_iff_eq.mp h0
      have he' : (e.1 == k') = false := by rw [he]; exact hkk
      simp only [storeGet]
      simp [hkk, he']
    · rw [storeSet, if_neg h0]
      simp only [storeGet]
      by_cases h1 : e.1 == k'
      · simp [h1]
      · simp [h1, ih]

lemma storeGet_cleanup_none (w : Int) (st : RLStore) (k : String)
    (h : ∀ ts, (k, ts) ∈ st → validTimestamps w ts = []) :
    storeGet (cleanupStore w st) k = none := by
  cases hg : storeGet (cleanupStore w st) k with
  | none => rfl
  | some ts =>
    exfalso
    obtain ⟨ts0, hmem, hts, hne⟩ := mem_cleanupStore w st k ts (storeGet_mem _ _ _ hg)
    exact hne (hts.trans (h ts0 hmem))

/-- Modelled from the spec, word for word (§3/§4.1): the kind check for a
present value, with no falsy-kind skip. -/
def kindOKSpec (fs : FieldSchema) (v : JSValue) : Bool :=
  match fs.type with
  | some t => validateType v t
  | none => true

/-- Modelled from the spec, word for word: the string constraints, with no
truthiness skips — a declared minLength/maxLength bound and a declared
pattern always apply. -/
def stringOKSpec (fs : FieldSchema) (s : String) : Bool :=
  (match fs.minLength with | some n => decide (n <= s.length) | none => true) &&
  (match fs.maxLength with | some n => decide (s.length <= n) | none => true) &&
  (match fs.pattern with | some p => p.test s | none => true) &&
  urlFormatOK fs s && emailFormatOK fs s

/-- Modelled from the spec, word for word: the array constraints, with no
truthiness skips. -/
def arrayOKSpec (fs : FieldSchema) (elems : List JSValue) : Bool :=
  (match fs.minItems with | some n => decide (n <= elems.length) | none => true) &&
  (match fs.maxItems with | some n => decide (elems.length <= n) | none => true)

/-- Modelled from the spec, word for word (§3/§4.1): `v` satisfies rule `fs`
under the spec's literal reading — a field is missing exactly when it is
absent (`undefined`/`null`; the empty string is a present value), a rule
with required=false is skipped when the field is absent, a present value
must pass the kind check, and then every constraint applicable to its kind
applies unconditionally. -/
def satisfiesRuleSpec (fs : FieldSchema) (v : JSValue) : Bool :=
  if isAbsent v then !fs.required
  else
    kindOKSpec fs v &&
    (match v with
     | .str s => fs.type != some "string" || stringOKSpec fs s
     | .arr elems => fs.type != some "array" || arrayOKSpec fs elems
     | _ => true) &&
    objectOK fs v

/-- Modelled from the spec, word for word (§8): the payload satisfies every
rule of the schema in the spec's literal sense. -/
def satisfiesSchemaSpec (schema : List (String × FieldSchema)) (body : List (String × JSValue)) : Bool :=
  schema.all (fun rule => satisfiesRuleSpec rule.2 (jsGet body rule.1))

/-- A schema with one required string field `f` and no other constraints. -/
def requiredStringSchema : List (String × FieldSchema) :=
  [("f", { type := some "string", required := true })]

/-- A payload in which `f` is present but bears the empty string. -/
def emptyStringFieldBody : List (String × JSValue) := [("f", .str "")]

/-- C2 counterexample: for a required string field bearing `''`, the code
returns a REQUIRED_FIELD error — the empty string is treated as missing at
line 27 of `validation.js` — although the payload satisfies every rule of
the schema under the spec's literal reading, in which only an absent field
is missing; so `result is empty iff P satisfies every rule in S` is false
as stated. -/
theorem validate_empty_iff_spec_literal_fails :
    validateErrors requiredStringSchema emptyStringFieldBody = [requiredError "f"] ∧
    satisfiesSchemaSpec requiredStringSchema emptyStringFieldBody = true :=
  ⟨rfl, rfl⟩

/-- C2 as amended: for every schema `S` and payload `P`, `validate(S, P)` is
a total Lean function by construction (determinism and freedom from
exceptions are inherited from the embedding being a pure function), and its
error list is empty exactly when `P` satisfies every rule of `S` in the
amended sense: a required field bearing the empty string counts as missing,
and a zero (falsy) length/item bound, an empty pattern source and an empty
kind name impose nothing. -/
theorem validate_empty_iff_satisfies (schema : List (String × FieldSchema)) (body : List (String × JSValue)) :
    validateErrors schema body = [] ↔ satisfiesSchema schema body = true := by
  induction schema with
  | nil => simp [validateErrors, satisfiesSchema]
  | cons r rest ih =>
    rw [validateErrors_cons, List.append_eq_nil]
    simp only [satisfiesSchema, List.all_cons, Bool.and_eq_true]
    rw [validateField_empty_iff]
    constructor
    · intro hp
      exact ⟨hp.1, ih.mp hp.2⟩
    · intro hp
      exact ⟨hp.1, ih.mpr hp.2⟩

/-- Modelled from the spec: a finite, non-NaN numeric value — the acceptance
set the spec asserts for kinds `float` and `number`. -/
def finiteNonNaNNumber : JSValue → Bool
  | .num (.finite _) => true
  | _ => false

/-- Modelled from the spec, as amended: a non-NaN numeric value, infinities
included. -/
def nonNaNNumber : JSValue → Bool
  | .num .nan => false
  | .num _ => true
  | _ => false

/-- Modelled from the spec: a whole number (a finite numeric value that is
integral). -/
def wholeNumber : JSValue → Bool
  | .num (.finite q) => q.den == 1
  | _ => false

/-- C6 counterexample: the code's type check for kind `number` accepts
`Infinity`, which is not a finite non-NaN numeric value, so the claim that
infinite values are rejected is false. -/
theorem validateType_accepts_infinity :
    validateType (.num .posInf) "number" = true ∧
    finiteNonNaNNumber (.num .posInf) = false :=
  ⟨rfl, rfl⟩

/-- C6 as amended: `integer` accepts exactly whole numbers; `float` and
`number` accept exactly non-NaN numeric values, infinities included. -/
theorem validateType_numeric_kinds (v : JSValue) :
    validateType v "integer" = wholeNumber v ∧
    validateType v "float" = nonNaNNumber v ∧
    validateType v "number" = nonNaNNumber v := by
  cases v with
  | num n => cases n <;> exact ⟨rfl, rfl, rfl⟩
  | undefined => exact ⟨rfl, rfl, rfl⟩
  | null => exact ⟨rfl, rfl, rfl⟩
  | bool b => exact ⟨rfl, rfl, rfl⟩
  | str s => exact ⟨rfl, rfl, rfl⟩
  | arr elems => exact ⟨rfl, rfl, rfl⟩
  | obj fields => exact ⟨rfl, rfl, rfl⟩

/-- A one-rule schema whose field must be a string of at least five
characters matching a pattern requiring the text to start with `abc`. -/
def doubleFailSchema : List (String × FieldSchema) :=
  [("prompt", { type := some "string", required := true, minLength := some 5,
                pattern := some ⟨"^abc", fun s => s.startsWith "abc"⟩ })]

/-- A payload whose `prompt` is present but violates both the minLength and
the pattern rule of `doubleFailSchema`. -/
def doubleFailBody : List (String × JSValue) := [("prompt", .str "xy")]

/-- C7: validation accumulates errors across all rules (the error list of a
concatenated schema is the concatenation of the error lists) and across all
checks of one field: a present string violating both its minLength bound and
its pattern yields exactly the two distinct errors MIN_LENGTH and
INVALID_PATTERN. -/
theorem validation_accumulates_errors :
    (∀ (s1 s2 : List (String × FieldSchema)) (body : List (String × JSValue)),
      validateErrors (s1 ++ s2) body = validateErrors s1 body ++ validateErrors s2 body)
    ∧ (validateErrors doubleFailSchema doubleFailBody).map ValidationError.code
        = ["MIN_LENGTH", "INVALID_PATTERN"] := by
  constructor
  · intro s1 s2 body
    induction s1 with
    | nil => simp [validateErrors]
    | cons r rest ih =>
      rw [List.cons_append, validateErrors_cons, validateErrors_cons, ih,
        List.append_assoc]
  · rfl

/-- C10: a required field whose value is `undefined`, `null`, or the empty
string yields exactly the one REQUIRED_FIELD error for that field, and no
other check (type, MIN_LENGTH, ...) runs for it. -/
theorem required_empty_single_error (fieldName : String) (fs : FieldSchema) (v : JSValue)
    (hreq : fs.required = true)
    (hv : v = .undefined ∨ v = .null ∨ v = .str "") :
    validateField fieldName fs v = [requiredError fieldName] := by
  have hm : isMissingOrEmpty v = true := by
    rcases hv with h | h | h <;> rw [h] <;> rfl
  simp [validateField, hreq, hm]

/-- Witness for C10 at the OCR schema's `image` rule and an empty-string
value. -/
theorem required_empty_single_error_witness :
    validateField "image" { type := some "string", required := true, minLength := some 1 }
      (.str "") = [requiredError "image"] :=
  required_empty_single_error "image" _ _ rfl (Or.inr (Or.inr rfl))

/-- A development configuration with no configured API key. -/
def devEnv : Env := { nodeEnv := some "development", apiKey := none }

/-- A production configuration with a configured API key. -/
def prodEnv : Env := { nodeEnv := some "production", apiKey := some "secret123" }

/-- A request presenting no key anywhere and an empty body. -/
def emptyRequest : Request := {}

/-- C3 counterexample: in development mode with no configured key,
`authenticateRequest` admits the request but leaves `req.auth` unset; no
identity — in particular none with `authenticated = false` — is attached,
contrary to the claim. -/
theorem dev_bypass_attaches_no_identity :
    authenticateRequest devEnv "2024-01-01T00:00:00.000Z" emptyRequest = .proceed none ∧
    ¬ ∃ ident : AuthInfo,
        authenticateRequest devEnv "2024-01-01T00:00:00.000Z" emptyRequest
          = .proceed (some ident) := by
  refine ⟨rfl, ?_⟩
  rintro ⟨ident, h⟩
  rw [show authenticateRequest devEnv "2024-01-01T00:00:00.000Z" emptyRequest
        = .proceed none from rfl] at h
  cases h

/-- C3 as amended: in development mode with no (truthy) configured key,
`authenticateRequest` admits every request immediately and attaches nothing
to the request context. -/
theorem dev_bypass_admits_unmarked (env : Env) (now : String) (req : Request)
    (hdev : env.nodeEnv = some "development")
    (hkey : envTruthy env.apiKey = false) :
    authenticateRequest env now req = .proceed none := by
  simp [authenticateRequest, hdev, hkey]

/-- Witness for the amended C3 at a concrete configuration and request. -/
theorem dev_bypass_admits_unmarked_witness :
    authenticateRequest devEnv "t0" emptyRequest = .proceed none :=
  dev_bypass_admits_unmarked devEnv "t0" emptyRequest rfl rfl

/-- A request presenting the eight-character key `abcdefgh` in the
`x-api-key` header. -/
def devKeyRequest : Request := { headers := [("x-api-key", "abcdefgh")] }

/-- C4: with no configured key and development mode active, a resolved
candidate validates exactly when its length is at least 8, and the
non-failing authenticator marks the request authenticated exactly in that
case (so a 7-character candidate does not authenticate). -/
theorem dev_fallback_length_rule (env : Env) (now : String) (req : Request) (k : String)
    (hdev : env.nodeEnv = some "development")
    (hkey : envTruthy env.apiKey = false)
    (hres : getApiKeyFromRequest req = some k) :
    isValidApiKey env k = decide (8 <= k.length) ∧
    (optionalAuthenticate env now req).authenticated = decide (8 <= k.length) := by
  have hv : isValidApiKey env k = decide (8 <= k.length) := by
    by_cases hk : k = ""
    · subst hk
      simp [isValidApiKey]
    · have hk' : (k == "") = false := beq_eq_false_iff_ne.mpr hk
      simp [isValidApiKey, hk', hkey, hdev]
  refine ⟨hv, ?_⟩
  simp only [optionalAuthenticate, hres, hv]
  by_cases h8 : 8 <= k.length
  · simp [h8]
  · simp [h8]

/-- Witness for C4: the eight-character key `abcdefgh` validates and
authenticates in a key-less development configuration. -/
theorem dev_fallback_length_rule_witness :
    isValidApiKey devEnv "abcdefgh" = decide (8 <= ("abcdefgh" : String).length) ∧
    (optionalAuthenticate devEnv "t0" devKeyRequest).authenticated
      = decide (8 <= ("abcdefgh" : String).length) :=
  dev_fallback_length_rule devEnv "t0" devKeyRequest "abcdefgh" rfl rfl rfl

/-- Modelled from the spec (§4.2), word for word: the claimed resolver order,
in which the authorization candidate has a literal `'Bearer '` prefix
stripped (only a leading occurrence). -/
def resolveKeyClaim (req : Request) : Option String :=
  (([(req.headers.lookup "x-api-key").map JSValue.str,
     (req.headers.lookup "authorization").map (fun a =>
       .str (if "Bearer ".data.isPrefixOf a.data then (⟨a.data.drop 7⟩ : String) else a)),
     (req.headers.lookup "api-key").map JSValue.str,
     req.query.lookup "apiKey",
     req.body.lookup "apiKey"] : List (Option JSValue)).findSome? acceptCandidate)

/-- A request whose only candidate is an authorization header in which
`'Bearer '` occurs in the middle rather than as a prefix. -/
def innerBearerRequest : Request := { headers := [("authorization", "xBearer y")] }

/-- C5 counterexample: the source's resolver removes the first occurrence of
`'Bearer '` anywhere in the authorization header (JS `String.replace`), not
only a prefix, so on `authorization: xBearer y` the code yields `xy` while
the claimed prefix-stripping resolver yields `xBearer y`. -/
theorem resolver_bearer_not_prefix :
    getApiKeyFromRequest innerBearerRequest = some "xy" ∧
    resolveKeyClaim innerBearerRequest = some "xBearer y" ∧
    ("xy" : String) ≠ "xBearer y" := by
  refine ⟨rfl, rfl, ?_⟩
  decide

/-- Modelled from the spec (§4.2), as amended: the fixed-order resolver in
which the authorization candidate has the first occurrence of `'Bearer '`
removed (anywhere in the string); each location's candidate is accepted only
if it is a string of trimmed length > 0, the trimmed form being returned,
and `none` results when no location yields such a candidate. -/
def resolveKeyAmended (req : Request) : Option String :=
  match acceptCandidate ((req.headers.lookup "x-api-key").map JSValue.str) with
  | some k => some k
  | none =>
  match acceptCandidate ((req.headers.lookup "authorization").map (fun a =>
      .str (jsReplaceFirst a "Bearer " ""))) with
  | some k => some k
  | none =>
  match acceptCandidate ((req.headers.lookup "api-key").map JSValue.str) with
  | some k => some k
  | none =>
  match acceptCandidate (req.query.lookup "apiKey") with
  | some k => some k
  | none => acceptCandidate (req.body.lookup "apiKey")

/-- A request presenting both `x-api-key: A` and a body `apiKey: B`. -/
def dualKeyRequest : Request :=
  { headers := [("x-api-key", "A")], body := [("apiKey", .str "B")] }

/-- C5 as amended: the source resolver agrees with the spec-described
fixed-order resolver once `'Bearer ' prefix stripped` is read as `first
occurrence of 'Bearer ' removed`; in particular, a request carrying both
`x-api-key: A` and body `apiKey: B` resolves to `A`. -/
theorem resolver_fixed_order :
    (∀ req : Request, getApiKeyFromRequest req = resolveKeyAmended req) ∧
    getApiKeyFromRequest dualKeyRequest = some "A" := by
  refine ⟨?_, rfl⟩
  intro req
  rw [getApiKeyFromRequest, keyLocations, resolveKeyAmended]
  rw [List.findSome?_cons]
  cases acceptCandidate ((req.headers.lookup "x-api-key").map JSValue.str) with
  | some k => rfl
  | none =>
    rw [List.findSome?_cons]
    cases acceptCandidate ((req.headers.lookup "authorization").map (fun a =>
        JSValue.str (jsReplaceFirst a "Bearer " ""))) with
    | some k => rfl
    | none =>
      rw [List.findSome?_cons]
      cases acceptCandidate ((req.headers.lookup "api-key").map JSValue.str) with
      | some k => rfl
      | none =>
        rw [List.findSome?_cons]
        cases acceptCandidate (req.query.lookup "apiKey") with
        | some k => rfl
        | none =>
          rw [List.findSome?_cons]
          cases acceptCandidate (req.body.lookup "apiKey") with
          | some k => rfl
          | none => rfl

/-- Modelled from the spec (§4.5): the claimed stage order, in which
validation runs before authentication and the first failing stage produces
the rejection. (The claimed third stage, rate limiting, is not part of the
route chain in the source — the application installs a global per-IP limiter
from an external library before routing — and is unreachable for the
comparison inputs in either order.) -/
def claimedOcrAdmission (env : Env) (now : String) (req : Request) : PipelineResult :=
  let errs := validateErrors ocrSchema req.body
  if errs.isEmpty then
    match authenticateRequest env now req with
    | .reject status error message => .rejected status error message []
    | .proceed auth => .handled auth
  else .rejected 400 "Validation failed" "Request validation failed" errs

/-- C1 counterexample: on a request that both lacks a credential and fails
schema validation, the source pipeline produces the authentication rejection
(401), while the claimed Validate-first pipeline would produce the validation
rejection (400) — so validation is not the first stage and the claimed order
is false. -/
theorem pipeline_auth_runs_first :
    ocrAdmission prodEnv "t0" emptyRequest
      = .rejected 401 "Authentication required" "API key is required for this endpoint" [] ∧
    claimedOcrAdmission prodEnv "t0" emptyRequest
      = .rejected 400 "Validation failed" "Request validation failed" [requiredError "image"] ∧
    ocrAdmission prodEnv "t0" emptyRequest ≠ claimedOcrAdmission prodEnv "t0" emptyRequest := by
  refine ⟨rfl, rfl, ?_⟩
  intro h
  rw [show ocrAdmission prodEnv "t0" emptyRequest
        = .rejected 401 "Authentication required" "API key is required for this endpoint" []
      from rfl,
    show claimedOcrAdmission prodEnv "t0" emptyRequest
        = .rejected 400 "Validation failed" "Request validation failed" [requiredError "image"]
      from rfl] at h
  cases h

/-- C1 as amended: per inbound request the OCR route chain runs Authenticate
first and then Validate, the first stage to fail short-circuiting the rest
with its structured rejection; when both pass the request reaches the
handler carrying the authentication context. -/
theorem pipeline_stage_order (env : Env) (now : String) (req : Request) :
    (∀ status error message,
      authenticateRequest env now req = .reject status error message →
        ocrAdmission env now req = .rejected status error message []) ∧
    (∀ auth, authenticateRequest env now req = .proceed auth →
      (validateErrors ocrSchema req.body = [] →
        ocrAdmission env now req = .handled auth) ∧
      (validateErrors ocrSchema req.body ≠ [] →
        ocrAdmission env now req
          = .rejected 400 "Validation failed" "Request validation failed"
              (validateErrors ocrSchema req.body))) := by
  constructor
  · intro status error message h
    simp [ocrAdmission, h]
  · intro auth h
    constructor
    · intro hv
      simp [ocrAdmission, h, hv]
    · intro hv
      have hne : (validateErrors ocrSchema req.body).isEmpty = false := by
        cases he : validateErrors ocrSchema req.body with
        | nil => exact absurd he hv
        | cons a l => rfl
      simp [ocrAdmission, h, hne]

/-- A request whose body satisfies the OCR schema but which presents no
credential. -/
def imageOnlyRequest : Request := { body := [("image", .str "x")] }

/-- Witness for the amended C1: in a key-less development configuration the
bypass admits, validation passes, and the handler is reached. -/
theorem pipeline_stage_order_witness :
    ocrAdmission devEnv "t0" imageOnlyRequest = .handled none :=
  ((pipeline_stage_order devEnv "t0" imageOnlyRequest).2 none rfl).1 rfl

/-- C8: with window 1000 ms and limit 3, four admit calls for one key at
times lying within a single window admit the first three and reject the
fourth with `retryAfter = 1 = ceil(1000/1000)`; a fifth call made once the
window has elapsed past the earlier calls is admitted again. -/
theorem rate_limit_window_scenario (k : String) (t1 t2 t3 t4 t5 : Int)
    (h12 : t1 <= t2) (h23 : t2 <= t3) (h34 : t3 <= t4)
    (hwin : t4 < t1 + 1000) (hgap : t4 + 1000 <= t5) :
    runRateLimit 1000 3 [] [(k, t1), (k, t2), (k, t3), (k, t4), (k, t5)]
      = [.admitted, .admitted, .admitted, .rejected 1, .admitted] := by
  have s1 : rateLimitStep 1000 3 [] k t1 = ([(k, [t1])], .admitted) := rfl
  have hv1 : validTimestamps (t2 - 1000) [t1] = [t1] := by
    refine validTimestamps_all_in _ _ ?_
    intro t ht
    simp at ht
    omega
  have c2 : cleanupStore (t2 - 1000) [(k, [t1])] = [(k, [t1])] := by
    simp [cleanupStore, hv1]
  have g2 : storeGet [(k, [t1])] k = some [t1] := by
    simp [storeGet]
  have s2 : rateLimitStep 1000 3 [(k, [t1])] k t2 = ([(k, [t1, t2])], .admitted) := by
    simp only [rateLimitStep, c2, g2, Option.getD_some, hv1]
    norm_num [storeSet]
  have hv2 : validTimestamps (t3 - 1000) [t1, t2] = [t1, t2] := by
    refine validTimestamps_all_in _ _ ?_
    intro t ht
    simp at ht
    rcases ht with h | h <;> omega
  have c3 : cleanupStore (t3 - 1000) [(k, [t1, t2])] = [(k, [t1, t2])] := by
    simp [cleanupStore, hv2]
  have g3 : storeGet [(k, [t1, t2])] k = some [t1, t2] := by
    simp [storeGet]
  have s3 : rateLimitStep 1000 3 [(k, [t1, t2])] k t3 = ([(k, [t1, t2, t3])], .admitted) := by
    simp only [rateLimitStep, c3, g3, Option.getD_some, hv2]
    norm_num [storeSet]
  have hv3 : validTimestamps (t4 - 1000) [t1, t2, t3] = [t1, t2, t3] := by
    refine validTimestamps_all_in _ _ ?_
    intro t ht
    simp at ht
    rcases ht with h | h | h <;> omega
  have c4 : cleanupStore (t4 - 1000) [(k, [t1, t2, t3])] = [(k, [t1, t2, t3])] := by
    simp [cleanupStore, hv3]
  have g4 : storeGet [(k, [t1, t2, t3])] k = some [t1, t2, t3] := by
    simp [storeGet]
  have s4 : rateLimitStep 1000 3 [(k, [t1, t2, t3])] k t4 = ([(k, [t1, t2, t3])], .rejected 1) := by
    simp only [rateLimitStep, c4, g4, Option.getD_some, hv3]
    norm_num
  have hv4 : validTimestamps (t5 - 1000) [t1, t2, t3] = [] := by
    refine validTimestamps_all_out _ _ ?_
    intro t ht
    simp at ht
    rcases ht with h | h | h <;> omega
  have c5 : cleanupStore (t5 - 1000) [(k, [t1, t2, t3])] = [] := by
    simp [cleanupStore, hv4]
  have s5 : rateLimitStep 1000 3 [(k, [t1, t2, t3])] k t5 = ([(k, [t5])], .admitted) := by
    simp only [rateLimitStep, c5]
    norm_num [storeGet, storeSet, validTimestamps]
  simp [runRateLimit, s1, s2, s3, s4, s5]

/-- Witness for C8 at concrete call times 0, 100, 200, 300 and 1300. -/
theorem rate_limit_window_scenario_witness :
    runRateLimit 1000 3 [] [("key", 0), ("key", 100), ("key", 200), ("key", 300), ("key", 1300)]
      = [.admitted, .admitted, .admitted, .rejected 1, .admitted] :=
  rate_limit_window_scenario "key" 0 100 200 300 1300
    (by decide) (by decide) (by decide) (by decide) (by decide)

/-- C9: after any admit call (whatever its outcome), every key present in
the limiter's store holds a non-empty timestamp list lying strictly inside
the trailing window; and a key other than the caller's all of whose stored
timestamps have aged out of the window is removed from the store entirely,
not merely ignored. -/
theorem rate_limit_store_pruned (windowMs : Int) (maxRequests : Nat)
    (st : RLStore) (key : String) (now : Int) (hw : 0 < windowMs) :
    (∀ k ts, storeGet (rateLimitStep windowMs maxRequests st key now).1 k = some ts →
        ts ≠ [] ∧ ∀ t ∈ ts, now - windowMs < t) ∧
    (∀ k, k ≠ key →
      (∀ ts, (k, ts) ∈ st → ∀ t ∈ ts, t <= now - windowMs) →
        storeGet (rateLimitStep windowMs maxRequests st key now).1 k = none) := by
  have hclean : ∀ k ts, (k, ts) ∈ cleanupStore (now - windowMs) st →
      ts ≠ [] ∧ ∀ t ∈ ts, now - windowMs < t := by
    intro k ts hmem
    obtain ⟨ts0, _, hts, hne⟩ := mem_cleanupStore (now - windowMs) st k ts hmem
    refine ⟨hne, ?_⟩
    intro t ht
    rw [hts] at ht
    exact mem_validTimestamps _ _ _ ht
  by_cases hc : maxRequests <=
      (validTimestamps (now - windowMs)
        ((storeGet (cleanupStore (now - windowMs) st) key).getD [])).length
  · have hres : (rateLimitStep windowMs maxRequests st key now).1
        = cleanupStore (now - windowMs) st := by
      simp only [rateLimitStep]
      rw [if_pos hc]
    rw [hres]
    constructor
    · intro k ts hget
      exact hclean k ts (storeGet_mem _ _ _ hget)
    · intro k _ hstale
      refine storeGet_cleanup_none _ _ _ ?_
      intro ts hmem
      refine validTimestamps_all_out _ _ ?_
      intro t ht
      have := hstale ts hmem t ht
      omega
  · have hres : (rateLimitStep windowMs maxRequests st key now).1
        = storeSet (cleanupStore (now - windowMs) st) key
            (validTimestamps (now - windowMs)
              ((storeGet (cleanupStore (now - windowMs) st) key).getD []) ++ [now]) := by
      simp only [rateLimitStep]
      rw [if_neg hc]
    rw [hres]
    constructor
    · intro k ts hget
      rcases mem_storeSet _ _ _ _ (storeGet_mem _ _ _ hget) with he | he
      · have hk := congrArg Prod.fst he
        have hts := congrArg Prod.snd he
        simp only at hk hts
        constructor
        · rw [hts]
          simp
        · intro t ht
          rw [hts] at ht
          rcases List.mem_append.mp ht with h | h
          · exact mem_validTimestamps _ _ _ h
          · have : t = now := List.mem_singleton.mp h
            omega
      · exact hclean k ts he
    · intro k hk hstale
      rw [storeGet_storeSet_ne _ _ _ _ hk]
      refine storeGet_cleanup_none _ _ _ ?_
      intro ts hmem
      refine validTimestamps_all_out _ _ ?_
      intro t ht
      have := hstale ts hmem t ht
      omega

/-- Witness for C9: a key whose only stored timestamp has aged out of the
window is evicted by a later call for a different key. -/
theorem rate_limit_store_pruned_witness :
    storeGet (rateLimitStep 1000 3 [("old", [-5000])] "new" 0).1 "old" = none :=
  (rate_limit_store_pruned 1000 3 [("old", [-5000])] "new" 0 (by decide)).2
    "old" (by decide)
    (by
      intro ts hmem t ht
      have hts : ("old", ts) = ("old", ([-5000] : List Int)) := List.mem_singleton.mp hmem
      have : ts = [-5000] := congrArg Prod.snd hts
      rw [this] at ht
      have : t = -5000 := List.mem_singleton.mp ht
      omega)
